import Mathlib

/-!
# Lifecycle of the HTTP servers started by `main.go`

`main.go` starts up to three HTTP servers (`pprof`, `metrics`, `app`), each through
`runHTTP`, inside one `errgroup` whose context is derived from the context of the
command line application.  Every call of `runHTTP` runs two goroutines: the task
itself (bind, log, serve) and a shutdown watcher.

The development below is a small-step interleaving semantics of that program.  One
`Event` is one atomic step of one goroutine (or of the environment: the parent context
being cancelled, time passing).  The outcomes of library calls (`net.Listen`,
`Server.Serve`, `Server.Shutdown`, `Server.Close`) are carried by the events, so that
a statement quantified over all event lists covers every outcome and every schedule.

Conventions: the return of `runHTTP` and the bookkeeping of `eg.Go` for that return form
one step, so the order in which tasks return is the order in which the group sees their
results; in the start state `main` has called `app.Run`, which either calls `Action`, and
then every task is in the hands of `eg.Go`, or returns on its own without calling it; the
request handlers and the metrics counter are not modelled.
-/

set_option maxRecDepth 100000

namespace GoBoilerplate

/-! ## Errors -/

/-- Go `error` values the program can observe; `nil` is `none : Option GoError`. -/
inductive GoError where
  /-- The sentinel `http.ErrServerClosed`. -/
  | errServerClosed
  /-- The sentinel `context.DeadlineExceeded`. -/
  | deadlineExceeded
  /-- Any other error without a wrapped cause, given by its text. -/
  | other (msg : String)
  /-- The value built by `fmt.Errorf` with one `%w` verb: the formatted text and the wrapped error. -/
  | wrap (msg : String) (inner : GoError)
  deriving DecidableEq

/-- The method `Error()`: the text of an error. -/
def GoError.Error : GoError → String
  | .errServerClosed => "http: Server closed"
  | .deadlineExceeded => "context deadline exceeded"
  | .other m => m
  | .wrap m _ => m

/-- The method `Unwrap()` as used by package `errors`. -/
def GoError.Unwrap : GoError → Option GoError
  | .wrap _ e => some e
  | _ => none

/-- The chain walk of `errors.Is` on a non-nil error. -/
def GoError.is : GoError → GoError → Bool
  | .wrap m e, t => decide (GoError.wrap m e = t) || e.is t
  | e, t => decide (e = t)

/-- The function `errors.Is(err, target)` for a non-nil target. -/
def errorsIs (err : Option GoError) (target : GoError) : Bool :=
  match err with
  | none => false
  | some e => e.is target

/-- The constant `time.Second`, in nanoseconds. -/
def second : Nat := 1000000000

/-! ## Configuration (lines 38-48 and 77-99) -/

/-- The anonymous struct `conf` of `main`. -/
structure Conf where
  addr : String
  metricsAddr : String
  pprofAddr : String
  enablePprof : Bool
  deriving DecidableEq

/-- The values `conf` holds when no flag or environment variable overrides them. -/
def defaultConf : Conf :=
  { addr := ":3311", metricsAddr := ":3001", pprofAddr := ":6060", enablePprof := true }

/-- The arguments `addr` and `name` of one call of `runHTTP` (the handler is not interpreted). -/
structure ServerSpec where
  addr : String
  name : String
  deriving DecidableEq

/-- The calls of `runHTTP` that `Action` hands to `eg.Go`, in program order (lines 80-99). -/
def actionSpecs (conf : Conf) : List ServerSpec :=
  (if conf.enablePprof then [{ addr := conf.pprofAddr, name := "pprof" }] else []) ++
    [{ addr := conf.metricsAddr, name := "metrics" }, { addr := conf.addr, name := "app" }]

/-- The name argument of task `i`. -/
def specName (specs : List ServerSpec) (i : Nat) : String :=
  match specs.get? i with
  | some sp => sp.name
  | none => ""

/-- The address argument of task `i`. -/
def specAddr (specs : List ServerSpec) (i : Nat) : String :=
  match specs.get? i with
  | some sp => sp.addr
  | none => ""

/-! ## Log lines and formatted texts -/

/-- Severity of a log line. -/
inductive Level where
  | info
  | error
  deriving DecidableEq

/-- One structured log line of the `logr` logger. -/
structure LogLine where
  level : Level
  err : Option GoError
  msg : String
  kvs : List (String × String)
  deriving DecidableEq

/-- Line 134: `log.Info(fmt.Sprintf("%s server is up and running", name), "addr", l.Addr().String())`. -/
def upLine (name bound : String) : LogLine :=
  { level := .info, err := none, msg := name ++ " server is up and running", kvs := [("addr", bound)] }

/-- Line 126: `log.Info(fmt.Sprintf("initiated a graceful shutdown of the %s server", name))`. -/
def initLine (name : String) : LogLine :=
  { level := .info, err := none,
    msg := "initiated a graceful shutdown of the " ++ name ++ " server", kvs := [] }

/-- Line 129: `log.Info(fmt.Sprintf("%s server terminated abruptly, necessitating a forced closure.", name))`. -/
def forcedLine (name : String) : LogLine :=
  { level := .info, err := none,
    msg := name ++ " server terminated abruptly, necessitating a forced closure.", kvs := [] }

/-- Line 106: `log.Error(err, "run")`. -/
def runErrorLine (e : GoError) : LogLine :=
  { level := .error, err := some e, msg := "run", kvs := [] }

/-- Line 114: `fmt.Errorf("could not listen for %s on address %w", name, err)`. -/
def bindError (name : String) (e : GoError) : GoError :=
  .wrap ("could not listen for " ++ name ++ " on address " ++ e.Error) e

/-- A text contains another one as a contiguous part. -/
def Mentions (text name : String) : Prop :=
  ∃ before after : String, text = before ++ name ++ after

/-! ## Observable actions -/

/-- The context a timeout context is derived from. -/
inductive CtxRef where
  /-- The value of `context.Background()`. -/
  | background
  /-- The context `ctx` shared by the tasks of the group. -/
  | shared
  deriving DecidableEq

/-- What one goroutine of one `runHTTP` call does to the outside world. -/
inductive Act where
  /-- Line 112 returned a listener; `bound` is `l.Addr().String()`. -/
  | listenOk (addr bound : String)
  /-- Line 112 returned the error `e`. -/
  | listenFail (addr : String) (e : GoError)
  /-- Line 122: the watcher goroutine is started. -/
  | go
  /-- A call of `log.Info`. -/
  | log (line : LogLine)
  /-- Line 135: `s.Serve(l)` is called. -/
  | serveCall
  /-- Line 135: `s.Serve(l)` returned `r`. -/
  | serveRet (r : Option GoError)
  /-- Value that `runHTTP` returns to the group. -/
  | ret (r : Option GoError)
  /-- Line 124: `context.WithTimeout(parent, timeout)`, yielding the given deadline. -/
  | withTimeout (parent : CtxRef) (timeout deadline : Nat)
  /-- Line 127: `s.Shutdown(shutdownContext)` is called. -/
  | shutdownCall
  /-- Line 127: `s.Shutdown` returned `r`. -/
  | shutdownRet (r : Option GoError)
  /-- Line 130: `s.Close()` is called (its result is discarded). -/
  | closeCall
  deriving DecidableEq

/-- The two goroutines of one call of `runHTTP`. -/
inductive Goroutine where
  /-- The goroutine running `runHTTP` itself (lines 112-120 and 134-135). -/
  | task
  /-- The goroutine started at line 122. -/
  | watcher
  deriving DecidableEq

/-- An action together with the index of the `runHTTP` call and the goroutine performing it. -/
structure Effect where
  who : Nat
  gor : Goroutine
  act : Act
  deriving DecidableEq

/-! ## Program counters and state -/

/-- Where the task goroutine of one `runHTTP` call stands. -/
inductive TaskPc where
  /-- Before line 112. -/
  | listen
  /-- Listener bound, before the `go` statement of line 122. -/
  | startWatcher
  /-- Before line 134. -/
  | logUp
  /-- Before the call of line 135. -/
  | callServe
  /-- Blocked inside `s.Serve(l)`. -/
  | serving
  /-- Returned `r`, and the group has taken note of it. -/
  | done (r : Option GoError)
  deriving DecidableEq

/-- Where the watcher goroutine (lines 122-132) of one `runHTTP` call stands. -/
inductive WatcherPc where
  /-- Not started. -/
  | notStarted
  /-- Blocked on `<-ctx.Done()` (line 123). -/
  | waiting
  /-- Before line 126. -/
  | logInit
  /-- Before the call of line 127. -/
  | callShutdown
  /-- Blocked inside `s.Shutdown`. -/
  | draining
  /-- Condition of line 128 was true for the result `r`; before line 129. -/
  | logForced (r : Option GoError)
  /-- Before line 130. -/
  | close (r : Option GoError)
  /-- Has returned; `r` is what `s.Shutdown` had returned. -/
  | done (r : Option GoError)
  deriving DecidableEq

/-- Local state of one `runHTTP` call. -/
structure Srv where
  task : TaskPc
  /-- Variable `l`: the bound address of the listener, once bound. -/
  l : Option String
  /-- Variable `err` of line 112. -/
  err : Option GoError
  watcher : WatcherPc
  /-- Deadline of `shutdownContext`, once created. -/
  deadline : Option Nat
  /-- Whether `s.Shutdown` or `s.Close` has been called on the server `s`. -/
  inShutdown : Bool
  deriving DecidableEq

/-- State of the whole process. -/
structure State where
  srv : Nat → Srv
  /-- Clock, in nanoseconds. -/
  now : Nat
  /-- Whether `c.Context` is cancelled. -/
  parentDone : Bool
  /-- Whether the context `ctx` returned by `errgroup.WithContext` is done. -/
  ctxDone : Bool
  /-- Field `err` of the group: the first non-nil value a task returned. -/
  egErr : Option GoError
  /-- Value returned by `eg.Wait()`, hence by `Action`, once it returned. -/
  waited : Option (Option GoError)
  /-- Value returned by `app.Run(os.Args)` at line 105, once it returned. -/
  appRun : Option (Option GoError)
  /-- Exit status of the process, once `main` ended. -/
  exited : Option Nat
  /-- Lines logged by `main` itself. -/
  mainLog : List LogLine
  /-- All actions so far, oldest first. -/
  trace : List Effect

/-- A call of `runHTTP` that has not started executing. -/
def Srv.fresh : Srv :=
  { task := .listen, l := none, err := none, watcher := .notStarted, deadline := none, inShutdown := false }

/-- State in which `main` has called `app.Run` and no goroutine of `Action` has taken a
step: either `Action` has handed every task to `eg.Go`, or the command line library has
not called `Action` (and then never will, see `Event.cliReturn`). -/
def State.start : State :=
  { srv := fun _ => Srv.fresh, now := 0, parentDone := false, ctxDone := false, egErr := none,
    waited := none, appRun := none, exited := none, mainLog := [], trace := [] }

/-- Pointwise replacement of the local state of call `i`. -/
def upd (f : Nat → Srv) (i : Nat) (v : Srv) : Nat → Srv :=
  fun j => if j = i then v else f j

/-- What the goroutine of `eg.Go` does when the function of a task returns (package
`errgroup`): the first non-nil result is stored and cancels the shared context.
`ret` is `none` while the function has not returned. -/
def egNote (egErr : Option GoError) (ctxDone : Bool) (ret : Option (Option GoError)) :
    Option GoError × Bool :=
  match ret, egErr with
  | some (some e), none => (some e, true)
  | _, _ => (egErr, ctxDone)

/-- Whether the task has returned. -/
def TaskPc.isDone : TaskPc → Bool
  | .done _ => true
  | _ => false

/-- Whether every task has returned. -/
def allDone (n : Nat) (srv : Nat → Srv) : Bool :=
  (List.range n).all fun i => (srv i).task.isDone

/-! ## Steps -/

/-- One atomic step of the goroutine that runs `runHTTP`. -/
inductive TaskEvent where
  /-- Line 112: `net.Listen` succeeds with resolved address `bound`. -/
  | listenOk (bound : String)
  /-- Lines 112-114: `net.Listen` fails with `e`, and `runHTTP` returns. -/
  | listenFail (e : GoError)
  /-- Lines 118-122: builds the server and starts the watcher. -/
  | startWatcher
  /-- Line 134: logs that the server is up. -/
  | logUp
  /-- Line 135: calls `s.Serve(l)`. -/
  | callServe
  /-- Line 135: `s.Serve(l)` returns `e` (never nil) and `runHTTP` returns it. -/
  | serveReturn (e : GoError)
  deriving DecidableEq

/-- One atomic step of the watcher goroutine of lines 122-132. -/
inductive WatcherEvent where
  /-- Lines 123-125: receives from `ctx.Done()` and creates `shutdownContext`. -/
  | observeDone
  /-- Line 126: logs the start of the graceful shutdown. -/
  | logInit
  /-- Line 127: calls `s.Shutdown(shutdownContext)`. -/
  | callShutdown
  /-- Lines 127-128: `s.Shutdown` returns `r`, and the condition of line 128 is evaluated. -/
  | shutdownReturn (r : Option GoError)
  /-- Line 129: logs the forced closure. -/
  | logForced
  /-- Lines 130-132: calls `s.Close()`, which returns `r`, and the watcher ends. -/
  | callClose (r : Option GoError)
  deriving DecidableEq

/-- One atomic step of a goroutine or of the environment. -/
inductive Event where
  /-- A step of the task goroutine of call `i`. -/
  | task (i : Nat) (ev : TaskEvent)
  /-- A step of the watcher of call `i`. -/
  | watcher (i : Nat) (ev : WatcherEvent)
  /-- Environment: the parent context `c.Context` of `Action` is cancelled.  (`main` calls
  `app.Run`, which hands `Action` a context derived from `context.Background()`; executions
  of the whole program therefore contain no such event.) -/
  | parentCancel
  /-- Coordinator: `eg.Wait()` returns (line 101): every task has returned, the shared
  context is cancelled and the stored error is handed to the caller of `Action`. -/
  | wait
  /-- Function `main`, lines 105-109, after `Action` has run: `app.Run` returns what `Action`
  returned, and `main` ends the process (see `mainExit`).  All goroutines end with the
  process. -/
  | mainReturn
  /-- Function `main`, lines 105-109, without `Action`: `app.Run` returns `r` on its own,
  because the command line library rejected the arguments (an unknown flag gives an error)
  or only printed the help (nil), and `main` ends the process (see `mainExit`).  No
  goroutine of `Action` ever takes a step in such an execution. -/
  | cliReturn (r : Option GoError)
  /-- Environment: `d` nanoseconds pass. -/
  | tick (d : Nat)
  deriving DecidableEq

/-- Lines 105-109 of `main`, given the value `app.Run` returned: an error is logged once at
error severity and the process exits with status 1 (`os.Exit(1)`); on nil nothing is logged
and `main` returns, so the process exits with status 0.  The result is the lines logged and
the exit status. -/
def mainExit : Option GoError → List LogLine × Nat
  | some e => ([runErrorLine e], 1)
  | none => ([], 0)

/-- The body of `runHTTP` outside the `go` statement (lines 111-120 and 134-135), one step at
a time.  The result is the new local state, the actions performed, and the value returned by
`runHTTP` if the step returns; `none` when the step cannot happen.  `Serve` returns
`http.ErrServerClosed` only after `Shutdown` or `Close` was called on the server. -/
def runHTTPStep (addr name : String) (sv : Srv) :
    TaskEvent → Option (Srv × List Act × Option (Option GoError))
  | .listenOk bound =>
    if sv.task = .listen then
      some ({ sv with task := .startWatcher, l := some bound }, [.listenOk addr bound], none)
    else none
  | .listenFail e =>
    if sv.task = .listen then
      some ({ sv with task := .done (some (bindError name e)), err := some e },
        [.listenFail addr e, .ret (some (bindError name e))], some (some (bindError name e)))
    else none
  | .startWatcher =>
    if sv.task = .startWatcher then
      some ({ sv with task := .logUp, watcher := .waiting }, [.go], none)
    else none
  | .logUp =>
    if sv.task = .logUp then
      some ({ sv with task := .callServe }, [.log (upLine name (sv.l.getD ""))], none)
    else none
  | .callServe =>
    if sv.task = .callServe then
      some ({ sv with task := .serving }, [.serveCall], none)
    else none
  | .serveReturn e =>
    if sv.task = .serving ∧ (e = .errServerClosed → sv.inShutdown = true) then
      some ({ sv with task := .done (some e) }, [.serveRet (some e), .ret (some e)], some (some e))
    else none

/-- The function literal of lines 122-132, one step at a time.  The result is the new local
state and the actions performed; `none` when the step cannot happen.  `Shutdown` returns
`context.DeadlineExceeded` itself only once the deadline of its context has passed. -/
def watcherStep (name : String) (ctxDone : Bool) (now : Nat) (sv : Srv) :
    WatcherEvent → Option (Srv × List Act)
  | .observeDone =>
    if sv.watcher = .waiting ∧ ctxDone = true then
      some ({ sv with watcher := .logInit, deadline := some (now + second) },
        [.withTimeout .background second (now + second)])
    else none
  | .logInit =>
    if sv.watcher = .logInit then
      some ({ sv with watcher := .callShutdown }, [.log (initLine name)])
    else none
  | .callShutdown =>
    if sv.watcher = .callShutdown then
      some ({ sv with watcher := .draining, inShutdown := true }, [.shutdownCall])
    else none
  | .shutdownReturn r =>
    if sv.watcher = .draining ∧ (r = some .deadlineExceeded → sv.deadline.getD 0 ≤ now) then
      some ({ sv with watcher := if errorsIs r .deadlineExceeded then .logForced r else .done r },
        [.shutdownRet r])
    else none
  | .logForced =>
    match sv.watcher with
    | .logForced r => some ({ sv with watcher := .close r }, [.log (forcedLine name)])
    | _ => none
  | .callClose _ =>
    match sv.watcher with
    | .close r => some ({ sv with watcher := .done r, inShutdown := true }, [.closeCall])
    | _ => none

/-- The step relation of the whole process as a function: `none` when the event cannot
happen in state `s`.  Nothing happens after the process has exited. -/
def step? (specs : List ServerSpec) (s : State) : Event → Option State
  | .task i ev =>
    if i < specs.length ∧ s.exited = none then
      match runHTTPStep (specAddr specs i) (specName specs i) (s.srv i) ev with
      | some (sv, acts, ret) =>
        some { s with
          srv := upd s.srv i sv
          egErr := (egNote s.egErr s.ctxDone ret).1
          ctxDone := (egNote s.egErr s.ctxDone ret).2
          trace := s.trace ++ acts.map (Effect.mk i .task) }
      | none => none
    else none
  | .watcher i ev =>
    if i < specs.length ∧ s.exited = none then
      match watcherStep (specName specs i) s.ctxDone s.now (s.srv i) ev with
      | some (sv, acts) =>
        some { s with
          srv := upd s.srv i sv
          trace := s.trace ++ acts.map (Effect.mk i .watcher) }
      | none => none
    else none
  | .parentCancel =>
    if s.exited = none ∧ s.parentDone = false then
      some { s with parentDone := true, ctxDone := true }
    else none
  | .wait =>
    if s.exited = none ∧ s.waited = none ∧ allDone specs.length s.srv = true then
      some { s with waited := some s.egErr, ctxDone := true }
    else none
  | .mainReturn =>
    match s.waited, s.exited with
    | some r, none =>
      some { s with
        appRun := some r
        mainLog := s.mainLog ++ (mainExit r).1
        exited := some (mainExit r).2 }
    | _, _ => none
  | .cliReturn r =>
    if s.exited = none ∧ s.waited = none ∧ s.trace = [] then
      some { s with
        appRun := some r
        mainLog := s.mainLog ++ (mainExit r).1
        exited := some (mainExit r).2 }
    else none
  | .tick d =>
    if s.exited = none then some { s with now := s.now + d } else none

/-- A step that leaves the state alone when the event cannot happen. -/
def step (specs : List ServerSpec) (s : State) (e : Event) : State :=
  (step? specs s e).getD s

/-- The state reached from the start by a list of events. -/
def run (specs : List ServerSpec) (evs : List Event) : State :=
  evs.foldl (step specs) State.start

/-- Whether every event of the list can happen when its turn comes. -/
def validFrom (specs : List ServerSpec) : State → List Event → Bool
  | _, [] => true
  | s, e :: es =>
    match step? specs s e with
    | some s' => validFrom specs s' es
    | none => false

/-- Whether the event list is an execution of the program from its start. -/
def valid (specs : List ServerSpec) (evs : List Event) : Bool :=
  validFrom specs State.start evs

/-! ## Histories read off the trace -/

/-- Actions of goroutine `g` of call `i`, oldest first. -/
def proj (i : Nat) (g : Goroutine) (tr : List Effect) : List Act :=
  tr.filterMap fun ef => if ef.who = i ∧ ef.gor = g then some ef.act else none

/-- All actions of call `i`, of both goroutines, oldest first. -/
def projAll (i : Nat) (tr : List Effect) : List Act :=
  tr.filterMap fun ef => if ef.who = i then some ef.act else none

/-- Results of the tasks in the order in which the group took note of them. -/
def completions (tr : List Effect) : List (Option GoError) :=
  tr.filterMap fun ef =>
    match ef.act with
    | .ret r => some r
    | _ => none

/-- The first non-nil entry of a list of results. -/
def firstErr : List (Option GoError) → Option GoError
  | [] => none
  | some e :: _ => some e
  | none :: rs => firstErr rs

/-- The history the task goroutine of a call must have produced, given where it stands. -/
def taskHist (addr name : String) (l : Option String) (err : Option GoError) (pc : TaskPc) :
    List Act :=
  let bound : List Act := [.listenOk addr (l.getD "")]
  let up : Act := .log (upLine name (l.getD ""))
  match pc with
  | .listen => []
  | .startWatcher => bound
  | .logUp => bound ++ [.go]
  | .callServe => bound ++ [.go, up]
  | .serving => bound ++ [.go, up, .serveCall]
  | .done r =>
    match err with
    | some e => [.listenFail addr e, .ret r]
    | none => bound ++ [.go, up, .serveCall, .serveRet r, .ret r]

/-- The history the watcher of a call must have produced, given where it stands. -/
def watcherHist (name : String) (deadline : Option Nat) (pc : WatcherPc) : List Act :=
  let t : Act := .withTimeout .background second (deadline.getD 0)
  let ini : Act := .log (initLine name)
  let forced : Act := .log (forcedLine name)
  match pc with
  | .notStarted => []
  | .waiting => []
  | .logInit => [t]
  | .callShutdown => [t, ini]
  | .draining => [t, ini, .shutdownCall]
  | .logForced r => [t, ini, .shutdownCall, .shutdownRet r]
  | .close r => [t, ini, .shutdownCall, .shutdownRet r, forced]
  | .done r =>
    if errorsIs r .deadlineExceeded then [t, ini, .shutdownCall, .shutdownRet r, forced, .closeCall]
    else [t, ini, .shutdownCall, .shutdownRet r]

/-- Whether the watcher has got past `<-ctx.Done()`. -/
def WatcherPc.woke : WatcherPc → Bool
  | .notStarted => false
  | .waiting => false
  | _ => true

/-- Whether the watcher has called `s.Shutdown`. -/
def WatcherPc.calledShutdown : WatcherPc → Bool
  | .notStarted => false
  | .waiting => false
  | .logInit => false
  | .callShutdown => false
  | _ => true

/-- Result of `s.Shutdown` as known to the watcher, once it returned. -/
def WatcherPc.shutdownResult : WatcherPc → Option (Option GoError)
  | .logForced r => some r
  | .close r => some r
  | .done r => some r
  | _ => none

/-- Facts about one call of `runHTTP` that hold whatever the other goroutines do: `th` and
`wh` are the histories of its task and of its watcher. -/
structure SrvInv (addr name : String) (sv : Srv) (th wh : List Act) : Prop where
  taskH : th = taskHist addr name sv.l sv.err sv.task
  watchH : wh = watcherHist name sv.deadline sv.watcher
  errL : ∀ e, sv.err = some e →
    sv.task = .done (some (bindError name e)) ∧ sv.l = none ∧ sv.watcher = .notStarted
  lsn : sv.task = .listen → sv.l = none ∧ sv.err = none ∧ sv.watcher = .notStarted
  sw : sv.task = .startWatcher → sv.watcher = .notStarted
  bnd : sv.l = none → sv.task = .listen ∨ sv.err ≠ none
  wnone : sv.watcher = .notStarted →
    sv.task = .listen ∨ sv.task = .startWatcher ∨ sv.err ≠ none
  res : sv.task ≠ .done none
  forced : ∀ r, sv.watcher = .logForced r ∨ sv.watcher = .close r →
    errorsIs r .deadlineExceeded = true
  insh : sv.inShutdown = true → sv.watcher.calledShutdown = true
  ddl : sv.watcher.woke = true → sv.deadline ≠ none
  closedIn : sv.task = .done (some .errServerClosed) → sv.inShutdown = true

/-- Facts that hold in every state the program can reach. -/
structure Inv (specs : List ServerSpec) (s : State) : Prop where
  loc : ∀ i, SrvInv (specAddr specs i) (specName specs i) (s.srv i)
    (proj i .task s.trace) (proj i .watcher s.trace)
  out : ∀ i, specs.length ≤ i → s.srv i = Srv.fresh
  wctx : ∀ i, (s.srv i).watcher.woke = true → s.ctxDone = true
  dl : ∀ i, (s.srv i).watcher.shutdownResult = some (some .deadlineExceeded) →
    (s.srv i).deadline.getD 0 ≤ s.now
  g1 : s.ctxDone = true → s.parentDone = true ∨ s.egErr ≠ none ∨ s.waited ≠ none
  g2 : ∀ r, s.waited = some r →
    r = s.egErr ∧ ∀ i, i < specs.length → (s.srv i).task.isDone = true
  g3 : s.egErr = firstErr (completions s.trace)
  g4 : s.parentDone = false → s.egErr ≠ some .errServerClosed
  g5 : ∀ e, s.egErr = some e → ∃ i, i < specs.length ∧ (s.srv i).task = .done (some e)
  g6 : ∀ i, (s.srv i).task.isDone = true → s.egErr ≠ none
  g7 : s.exited = none → s.mainLog = []
  g8 : ∀ c, s.exited = some c → ∃ ρ, s.appRun = some ρ ∧ s.mainLog = (mainExit ρ).1 ∧
    c = (mainExit ρ).2 ∧ (∀ r, s.waited = some r → ρ = r) ∧ (s.waited = none → s.trace = [])
  g9 : s.egErr ≠ none → s.ctxDone = true

/-- The log lines among a list of actions, oldest first. -/
def logsOf (acts : List Act) : List LogLine :=
  acts.filterMap fun a =>
    match a with
    | .log line => some line
    | _ => none

/-- Number of calls of `s.Shutdown` made for call `i` by any goroutine. -/
def shutdownAttempts (i : Nat) (tr : List Effect) : Nat :=
  (projAll i tr).count .shutdownCall

/-! ## Concrete executions -/

/-- A typical error of `net.Listen` when the port is taken. -/
def addrInUse : GoError :=
  .other "listen tcp :6060: bind: address already in use"

/-- A fatal (not temporary) error of the accept loop of `Serve`. -/
def acceptFailed : GoError :=
  .other "accept tcp: accept4: cannot allocate memory"

/-- Brings the three servers of the default configuration up to the point where all serve. -/
def allServing : List Event :=
  [.task 0 (.listenOk "[::]:6060"), .task 1 (.listenOk "[::]:3001"), .task 2 (.listenOk "[::]:3311"),
   .task 0 .startWatcher, .task 1 .startWatcher, .task 2 .startWatcher,
   .task 0 .logUp, .task 1 .logUp, .task 2 .logUp,
   .task 0 .callServe, .task 1 .callServe, .task 2 .callServe]

/-- The watcher of call `i` from waking up to the call of `Shutdown`. -/
def beginShutdown (i : Nat) : List Event :=
  [.watcher i .observeDone, .watcher i .logInit, .watcher i .callShutdown]

/-- The server of call `i` drains in time: `Serve` returns the closed condition, `Shutdown` nil. -/
def cleanDrain (i : Nat) : List Event :=
  beginShutdown i ++ [.task i (.serveReturn .errServerClosed), .watcher i (.shutdownReturn none)]

/-- The server of call `i` does not drain within a second and is closed by force. -/
def forcedDrain (i : Nat) : List Event :=
  beginShutdown i ++
    [.task i (.serveReturn .errServerClosed), .tick second,
     .watcher i (.shutdownReturn (some .deadlineExceeded)), .watcher i .logForced,
     .watcher i (.callClose none)]

/-- The bind of `pprof` fails at once, which cancels the shared context; `metrics` binds,
and its watcher, started with the context already done, logs before the task does. -/
def initBeforeUp : List Event :=
  [.task 0 (.listenFail addrInUse), .task 1 (.listenOk "[::]:3001"), .task 1 .startWatcher,
   .watcher 1 .observeDone, .watcher 1 .logInit, .task 1 .logUp]

/-- The grace of the scenario of the specification, 50 milliseconds, in nanoseconds. -/
def scenarioGrace : Nat := 50000000

/-- All three servers serve, 7 nanoseconds pass, the parent context is cancelled and the
watcher of `metrics` observes it. -/
def observeAtSeven : List Event :=
  allServing ++ [.tick 7, .parentCancel, .watcher 1 .observeDone]

/-- All three servers serve; the serve loop of `pprof` fails on its own; then `metrics` is
shut down gracefully by its watcher.  The parent context is never cancelled. -/
def serveFailThenClosed : List Event :=
  allServing ++ [.task 0 (.serveReturn acceptFailed)] ++ cleanDrain 1

/-- All three servers serve, the parent context is cancelled, every server drains in time
and the coordinator returns. -/
def cancelAndDrain : List Event :=
  allServing ++ [.parentCancel] ++ cleanDrain 0 ++ cleanDrain 1 ++ cleanDrain 2 ++ [.wait]

/-- All three servers serve; the serve loop of `pprof` fails on its own; `metrics` and `app`
are shut down by their watchers and drain in time; the coordinator returns.  The watcher
of `pprof` has not been scheduled by then.  The parent context is never cancelled. -/
def serveFailAllDrain : List Event :=
  allServing ++ [.task 0 (.serveReturn acceptFailed)] ++ cleanDrain 1 ++ cleanDrain 2 ++ [.wait]

/-- The execution `serveFailAllDrain` followed by the end of `main`. -/
def selfFailExit : List Event :=
  serveFailAllDrain ++ [.mainReturn]

/-- The error `app.Run` returns when the command line holds a flag the application does not
define. -/
def flagError : GoError :=
  .other "flag provided but not defined: -x"

/-- The command line library rejects the arguments: `app.Run` returns `flagError` without
calling `Action`, and `main` ends. -/
def unknownFlag : List Event :=
  [.cliReturn (some flagError)]

/-- All three servers serve, the parent context of `Action` is cancelled by its caller,
`pprof` and `app` drain in time, `metrics` is closed by force, and the coordinator returns. -/
def cancelDrainForced : List Event :=
  allServing ++ [.parentCancel] ++ cleanDrain 0 ++ forcedDrain 1 ++ cleanDrain 2 ++ [.wait]

/-- The bind of `pprof` fails while `metrics` and `app` serve; both are then shut down by
their watchers and the coordinator returns.  The parent context is never cancelled. -/
def bindFailsOthersServe : List Event :=
  [.task 1 (.listenOk "[::]:3001"), .task 2 (.listenOk "[::]:3311"),
   .task 1 .startWatcher, .task 2 .startWatcher, .task 1 .logUp, .task 2 .logUp,
   .task 1 .callServe, .task 2 .callServe, .task 0 (.listenFail addrInUse)] ++
    cleanDrain 1 ++ cleanDrain 2 ++ [.wait]

/-! ## Invariants of the step relation -/

@[simp]
theorem upd_same (f : Nat → Srv) (i : Nat) (v : Srv) : upd f i v i = v := by
  simp [upd]

@[simp]
theorem upd_ne (f : Nat → Srv) {i j : Nat} (v : Srv) (h : j ≠ i) : upd f i v j = f j := by
  simp [upd, h]

theorem proj_append (i : Nat) (g : Goroutine) (a b : List Effect) :
    proj i g (a ++ b) = proj i g a ++ proj i g b := by
  simp [proj, List.filterMap_append]

theorem proj_map_same (i : Nat) (g : Goroutine) (acts : List Act) :
    proj i g (acts.map (Effect.mk i g)) = acts := by
  induction acts with
  | nil => rfl
  | cons a t ih => simp_all [proj, List.filterMap_cons]

theorem proj_map_other (i j : Nat) (g g' : Goroutine) (acts : List Act) (h : j ≠ i ∨ g' ≠ g) :
    proj i g (acts.map (Effect.mk j g')) = [] := by
  induction acts with
  | nil => rfl
  | cons a t ih =>
    rcases h with h | h <;> simp_all [proj, List.filterMap_cons]

theorem completions_append (a b : List Effect) :
    completions (a ++ b) = completions a ++ completions b := by
  simp [completions, List.filterMap_append]

theorem firstErr_append_some (l : List (Option GoError)) (e : GoError) :
    firstErr (l ++ [some e]) = match firstErr l with | none => some e | some x => some x := by
  induction l with
  | nil => rfl
  | cons a t ih => cases a <;> simp [firstErr, ih]

theorem srvInv_fresh (addr name : String) : SrvInv addr name Srv.fresh [] [] := by
  constructor <;> simp [Srv.fresh, taskHist, watcherHist, WatcherPc.woke, WatcherPc.calledShutdown]

theorem inv_start (specs : List ServerSpec) : Inv specs State.start := by
  constructor <;> first
    | (intro i; exact srvInv_fresh _ _)
    | simp [State.start, Srv.fresh, proj, completions, firstErr,
        WatcherPc.woke, WatcherPc.calledShutdown, WatcherPc.shutdownResult, TaskPc.isDone]

theorem srvInv_task (addr name : String) (sv sv' : Srv) (th wh acts : List Act)
    (ret : Option (Option GoError)) (ev : TaskEvent) (hI : SrvInv addr name sv th wh)
    (h : runHTTPStep addr name sv ev = some (sv', acts, ret)) :
    SrvInv addr name sv' (th ++ acts) wh := by
  obtain ⟨h1, h2, h3, h4, h5, h6, h7, h8, h9, h10, h11, h12⟩ := hI
  have hE : sv.task ≠ .listen → (∀ r, sv.task ≠ .done r) → sv.err = none := by
    intro _ hd
    cases hx : sv.err with
    | none => rfl
    | some e => exact absurd (h3 e hx).1 (hd _)
  cases ev <;> simp only [runHTTPStep] at h <;> split at h <;>
    simp only [Option.some.injEq, Prod.mk.injEq, reduceCtorEq] at h
  all_goals first
    | exact h.elim
    | (obtain ⟨rfl, rfl, rfl⟩ := h
       constructor <;> simp_all [taskHist, WatcherPc.woke, WatcherPc.calledShutdown, bindError] <;>
         simp [watcherHist])

theorem srvInv_watcher (addr name : String) (sv sv' : Srv) (th wh acts : List Act)
    (c : Bool) (now : Nat) (ev : WatcherEvent) (hI : SrvInv addr name sv th wh)
    (h : watcherStep name c now sv ev = some (sv', acts)) :
    SrvInv addr name sv' th (wh ++ acts) := by
  obtain ⟨h1, h2, h3, h4, h5, h6, h7, h8, h9, h10, h11, h12⟩ := hI
  by_cases hr : ∀ r, ev = .shutdownReturn r → errorsIs r .deadlineExceeded = true
  all_goals
    cases ev <;> simp only [watcherStep] at h <;> split at h <;>
      simp only [Option.some.injEq, Prod.mk.injEq, reduceCtorEq] at h
  all_goals first
    | exact h.elim
    | (obtain ⟨rfl, rfl⟩ := h
       constructor <;> simp_all [watcherHist, WatcherPc.woke, WatcherPc.calledShutdown])

theorem runHTTPStep_facts (addr name : String) (sv sv' : Srv) (acts : List Act)
    (ret : Option (Option GoError)) (ev : TaskEvent) (i : Nat)
    (hsw : sv.task = .startWatcher → sv.watcher = .notStarted)
    (h : runHTTPStep addr name sv ev = some (sv', acts, ret)) :
    sv.task.isDone = false ∧ sv'.watcher.woke = sv.watcher.woke ∧
      sv'.watcher.shutdownResult = sv.watcher.shutdownResult ∧ sv'.deadline = sv.deadline ∧
      sv'.inShutdown = sv.inShutdown ∧
      (ret = none → sv'.task.isDone = false) ∧
      (∀ r, ret = some r → sv'.task = .done r ∧
        ∃ e, r = some e ∧ (e = .errServerClosed → sv.inShutdown = true)) ∧
      completions (acts.map (Effect.mk i .task)) = ret.toList := by
  cases ev <;> simp only [runHTTPStep] at h <;> split at h <;>
    simp only [Option.some.injEq, Prod.mk.injEq, reduceCtorEq] at h
  all_goals first
    | exact h.elim
    | (obtain ⟨rfl, rfl, rfl⟩ := h
       simp_all [TaskPc.isDone, WatcherPc.woke, WatcherPc.shutdownResult, completions, bindError])

theorem watcherStep_facts (name : String) (c : Bool) (now : Nat) (sv sv' : Srv) (acts : List Act)
    (ev : WatcherEvent) (i : Nat) (h : watcherStep name c now sv ev = some (sv', acts)) :
    sv'.task = sv.task ∧
      (sv'.watcher.woke = true → c = true ∨ sv.watcher.woke = true) ∧
      (sv'.watcher.shutdownResult = some (some .deadlineExceeded) →
        sv'.deadline.getD 0 ≤ now ∨
          (sv.watcher.shutdownResult = some (some .deadlineExceeded) ∧ sv'.deadline = sv.deadline)) ∧
      completions (acts.map (Effect.mk i .watcher)) = [] := by
  by_cases hr : ∀ r, ev = .shutdownReturn r → errorsIs r .deadlineExceeded = true
  all_goals
    cases ev <;> simp only [watcherStep] at h <;> split at h <;>
      simp only [Option.some.injEq, Prod.mk.injEq, reduceCtorEq] at h
  all_goals first
    | exact h.elim
    | (obtain ⟨rfl, rfl⟩ := h
       simp_all [WatcherPc.woke, WatcherPc.shutdownResult, completions])

theorem egNote_mono (g : Option GoError) (c : Bool) (ret : Option (Option GoError)) :
    c = true → (egNote g c ret).2 = true := by
  intro hc
  subst hc
  rcases ret with _ | _ | _ <;> cases g <;> rfl

theorem egNote_keep (g : Option GoError) (c : Bool) (ret : Option (Option GoError))
    (h : g ≠ none) : egNote g c ret = (g, c) := by
  cases g with
  | none => exact absurd rfl h
  | some x => rcases ret with _ | _ | _ <;> rfl

theorem egNote_none (g : Option GoError) (c : Bool) : egNote g c none = (g, c) := by
  cases g <;> rfl

theorem egNote_fire (c : Bool) (e : GoError) : egNote none c (some (some e)) = (some e, true) := rfl

theorem allDone_iff (n : Nat) (srv : Nat → Srv) :
    allDone n srv = true ↔ ∀ i, i < n → (srv i).task.isDone = true := by
  simp [allDone, List.all_eq_true]

theorem inv_step_task (specs : List ServerSpec) (s s' : State) (i : Nat) (ev : TaskEvent)
    (hI : Inv specs s) (h : step? specs s (.task i ev) = some s') : Inv specs s' := by
  simp only [step?] at h
  split at h
  case isFalse => exact absurd h (by simp)
  rename_i hg
  obtain ⟨hi, hx⟩ := hg
  split at h
  case h_2 => exact absurd h (by simp)
  rename_i sv acts ret hstep
  simp only [Option.some.injEq] at h
  subst h
  have hL := hI.loc i
  have hloc := srvInv_task _ _ _ _ _ _ _ _ _ hL hstep
  obtain ⟨f1, f2, f3, f4, f5, f6, f7, f8⟩ := runHTTPStep_facts _ _ _ _ _ _ _ i hL.sw hstep
  have hnw : s.waited = none := by
    cases hw : s.waited with
    | none => rfl
    | some r =>
      have := (hI.g2 r hw).2 i hi
      rw [f1] at this
      cases this
  refine
    { loc := ?_, out := ?_, wctx := ?_, dl := ?_, g1 := ?_, g2 := ?_, g3 := ?_, g4 := ?_,
      g5 := ?_, g6 := ?_, g7 := ?_, g8 := ?_, g9 := ?_ }
  · intro j
    by_cases hj : j = i
    · subst hj
      simpa [proj_append, proj_map_same, proj_map_other] using hloc
    · have hji : i ≠ j := fun h => hj h.symm
      simpa [proj_append, proj_map_other, hj, hji] using hI.loc j
  · intro j hjn
    have hj : j ≠ i := by omega
    simpa [hj] using hI.out j hjn
  · intro j hw
    apply egNote_mono
    by_cases hj : j = i
    · subst hj
      simp only [upd_same] at hw
      rw [f2] at hw
      exact hI.wctx j hw
    · simp only [upd_ne _ _ hj] at hw
      exact hI.wctx j hw
  · intro j hw
    by_cases hj : j = i
    · subst hj
      simp only [upd_same] at hw ⊢
      rw [f3] at hw
      rw [f4]
      exact hI.dl j hw
    · simp only [upd_ne _ _ hj] at hw ⊢
      exact hI.dl j hw
  · intro hc
    simp only at hc ⊢
    by_cases hg : s.egErr = none
    · cases ret with
      | none =>
        rw [egNote_none] at hc ⊢
        exact hI.g1 hc
      | some r =>
        obtain ⟨_, e, rfl, _⟩ := f7 r rfl
        rw [hg, egNote_fire]
        simp
    · rw [egNote_keep _ _ _ hg] at hc ⊢
      exact hI.g1 hc
  · intro r hw
    simp only at hw
    rw [hnw] at hw
    cases hw
  · simp only [completions_append, f8]
    cases ret with
    | none => simpa [egNote_none] using hI.g3
    | some r =>
      obtain ⟨_, e, rfl, _⟩ := f7 r rfl
      simp only [Option.toList, firstErr_append_some, ← hI.g3]
      cases hg : s.egErr with
      | none => rfl
      | some x => rw [egNote_keep _ _ _ (by simp)]
  · intro hp
    simp only at hp ⊢
    by_cases hg : s.egErr = none
    · cases ret with
      | none =>
        rw [egNote_none]
        exact hI.g4 hp
      | some r =>
        obtain ⟨_, e, rfl, hcl⟩ := f7 r rfl
        rw [hg, egNote_fire]
        simp only [ne_eq, Option.some.injEq]
        intro he
        have h1 := hL.insh (hcl he)
        have h2 : (s.srv i).watcher.woke = true := by
          revert h1
          cases (s.srv i).watcher <;> simp [WatcherPc.calledShutdown, WatcherPc.woke]
        rcases hI.g1 (hI.wctx i h2) with h3 | h3 | h3
        · rw [hp] at h3; cases h3
        · exact h3 hg
        · exact h3 hnw
    · rw [egNote_keep _ _ _ hg]
      exact hI.g4 hp
  · intro e he
    simp only at he ⊢
    by_cases hg : s.egErr = none
    · cases ret with
      | none =>
        rw [egNote_none, hg] at he
        cases he
      | some r =>
        obtain ⟨hd, e', rfl, _⟩ := f7 r rfl
        rw [hg, egNote_fire] at he
        simp only [Option.some.injEq] at he
        subst he
        exact ⟨i, hi, by simpa using hd⟩
    · rw [egNote_keep _ _ _ hg] at he
      obtain ⟨j, hj, hd⟩ := hI.g5 e he
      have hji : j ≠ i := by
        rintro rfl
        rw [hd] at f1
        cases f1
      exact ⟨j, hj, by simpa [hji] using hd⟩
  · intro j hd
    simp only at hd ⊢
    by_cases hj : j = i
    · subst hj
      simp only [upd_same] at hd
      cases ret with
      | none =>
        rw [f6 rfl] at hd
        cases hd
      | some r =>
        obtain ⟨_, e, rfl, _⟩ := f7 r rfl
        by_cases hg : s.egErr = none
        · rw [hg, egNote_fire]; simp
        · rw [egNote_keep _ _ _ hg]; exact hg
    · simp only [upd_ne _ _ hj] at hd
      have hg := hI.g6 j hd
      rw [egNote_keep _ _ _ hg]
      exact hg
  · exact hI.g7
  · intro c hc
    simp only at hc
    rw [hx] at hc
    cases hc
  · intro hne
    simp only at hne ⊢
    by_cases hg : s.egErr = none
    · cases ret with
      | none =>
        rw [egNote_none] at hne
        exact absurd hg hne
      | some r =>
        obtain ⟨_, e, rfl, _⟩ := f7 r rfl
        rw [hg, egNote_fire]
    · rw [egNote_keep _ _ _ hg]
      exact hI.g9 hg

theorem inv_step_watcher (specs : List ServerSpec) (s s' : State) (i : Nat) (ev : WatcherEvent)
    (hI : Inv specs s) (h : step? specs s (.watcher i ev) = some s') : Inv specs s' := by
  simp only [step?] at h
  split at h
  case isFalse => exact absurd h (by simp)
  rename_i hg
  obtain ⟨hi, hx⟩ := hg
  split at h
  case h_2 => exact absurd h (by simp)
  rename_i sv acts hstep
  simp only [Option.some.injEq] at h
  subst h
  have hL := hI.loc i
  have hloc := srvInv_watcher _ _ _ _ _ _ _ _ _ _ hL hstep
  obtain ⟨f1, f2, f3, f4⟩ := watcherStep_facts _ _ _ _ _ _ _ i hstep
  have htask : ∀ j, (upd s.srv i sv j).task = (s.srv j).task := by
    intro j
    by_cases hj : j = i
    · subst hj; simpa using f1
    · simp [hj]
  refine
    { loc := ?_, out := ?_, wctx := ?_, dl := ?_, g1 := hI.g1, g2 := ?_, g3 := ?_, g4 := hI.g4,
      g5 := ?_, g6 := ?_, g7 := hI.g7, g8 := fun c hc => absurd (hx ▸ hc) (by simp),
      g9 := hI.g9 }
  · intro j
    by_cases hj : j = i
    · subst hj
      simpa [proj_append, proj_map_same, proj_map_other] using hloc
    · have hji : i ≠ j := fun h => hj h.symm
      simpa [proj_append, proj_map_other, hj, hji] using hI.loc j
  · intro j hjn
    have hj : j ≠ i := by omega
    simpa [hj] using hI.out j hjn
  · intro j hw
    by_cases hj : j = i
    · subst hj
      simp only [upd_same] at hw
      rcases f2 hw with h1 | h1
      · exact h1
      · exact hI.wctx j h1
    · simp only [upd_ne _ _ hj] at hw
      exact hI.wctx j hw
  · intro j hw
    by_cases hj : j = i
    · subst hj
      simp only [upd_same] at hw ⊢
      rcases f3 hw with h1 | ⟨h1, h2⟩
      · exact h1
      · rw [h2]; exact hI.dl j h1
    · simp only [upd_ne _ _ hj] at hw ⊢
      exact hI.dl j hw
  · intro r hw
    obtain ⟨h1, h2⟩ := hI.g2 r hw
    refine ⟨h1, fun j hj => ?_⟩
    simp only [htask]
    exact h2 j hj
  · simp only [completions_append, f4, List.append_nil]
    exact hI.g3
  · intro e he
    obtain ⟨j, hj, hd⟩ := hI.g5 e he
    exact ⟨j, hj, by simpa only [htask] using hd⟩
  · intro j hd
    simp only [htask] at hd
    exact hI.g6 j hd

theorem inv_step (specs : List ServerSpec) (s s' : State) (e : Event)
    (hI : Inv specs s) (h : step? specs s e = some s') : Inv specs s' := by
  cases e with
  | task i ev => exact inv_step_task specs s s' i ev hI h
  | watcher i ev => exact inv_step_watcher specs s s' i ev hI h
  | parentCancel =>
    simp only [step?] at h
    split at h
    case isFalse => exact absurd h (by simp)
    simp only [Option.some.injEq] at h
    subst h
    exact
      { loc := hI.loc, out := hI.out, wctx := fun _ _ => rfl, dl := hI.dl,
        g1 := fun _ => Or.inl rfl, g2 := hI.g2, g3 := hI.g3,
        g4 := fun hp => by simp at hp, g5 := hI.g5, g6 := hI.g6, g7 := hI.g7, g8 := hI.g8,
        g9 := fun _ => rfl }
  | wait =>
    simp only [step?] at h
    split at h
    case isFalse => exact absurd h (by simp)
    rename_i hg
    obtain ⟨hx, hw, hall⟩ := hg
    simp only [Option.some.injEq] at h
    subst h
    exact
      { loc := hI.loc, out := hI.out, wctx := fun _ _ => rfl, dl := hI.dl,
        g1 := fun _ => Or.inr (Or.inr (by simp)),
        g2 := fun r hr => by
          simp only [Option.some.injEq] at hr
          exact ⟨hr.symm, (allDone_iff _ _).1 hall⟩
        g3 := hI.g3, g4 := hI.g4, g5 := hI.g5, g6 := hI.g6, g7 := hI.g7, g9 := fun _ => rfl,
        g8 := fun c hc => by
          simp only at hc
          rw [hx] at hc
          cases hc }
  | mainReturn =>
    simp only [step?] at h
    split at h
    · rename_i r hw hx
      simp only [Option.some.injEq] at h
      subst h
      exact
        { loc := hI.loc, out := hI.out, wctx := hI.wctx, dl := hI.dl, g1 := hI.g1, g2 := hI.g2,
          g3 := hI.g3, g4 := hI.g4, g5 := hI.g5, g6 := hI.g6, g9 := hI.g9,
          g7 := fun hc => by simp at hc,
          g8 := fun c hc => by
            simp only [Option.some.injEq] at hc
            refine ⟨r, rfl, by simp [hI.g7 hx], hc.symm, fun r' hr' => ?_, fun hn => ?_⟩
            · simp only at hr'
              rw [hw] at hr'
              exact Option.some.inj hr'
            · simp only at hn
              rw [hw] at hn
              cases hn }
    · exact absurd h (by simp)
  | cliReturn r =>
    simp only [step?] at h
    split at h
    case isFalse => exact absurd h (by simp)
    rename_i hg
    obtain ⟨hx, hw, ht⟩ := hg
    simp only [Option.some.injEq] at h
    subst h
    exact
      { loc := hI.loc, out := hI.out, wctx := hI.wctx, dl := hI.dl, g1 := hI.g1, g2 := hI.g2,
        g3 := hI.g3, g4 := hI.g4, g5 := hI.g5, g6 := hI.g6, g9 := hI.g9,
        g7 := fun hc => by simp at hc,
        g8 := fun c hc => by
          simp only [Option.some.injEq] at hc
          refine ⟨r, rfl, by simp [hI.g7 hx], hc.symm, fun r' hr' => ?_, fun _ => ht⟩
          simp only at hr'
          rw [hw] at hr'
          cases hr' }
  | tick d =>
    simp only [step?] at h
    split at h
    case isFalse => exact absurd h (by simp)
    simp only [Option.some.injEq] at h
    subst h
    exact
      { loc := hI.loc, out := hI.out, wctx := hI.wctx,
        dl := fun i hw => Nat.le_trans (hI.dl i hw) (Nat.le_add_right _ _),
        g1 := hI.g1, g2 := hI.g2, g3 := hI.g3, g4 := hI.g4, g5 := hI.g5, g6 := hI.g6,
        g7 := hI.g7, g8 := hI.g8, g9 := hI.g9 }

theorem inv_step_total (specs : List ServerSpec) (s : State) (e : Event) (hI : Inv specs s) :
    Inv specs (step specs s e) := by
  unfold step
  cases h : step? specs s e with
  | none => simpa using hI
  | some s' => simpa using inv_step specs s s' e hI h

theorem inv_foldl (specs : List ServerSpec) (evs : List Event) (s : State) (hI : Inv specs s) :
    Inv specs (evs.foldl (step specs) s) := by
  induction evs generalizing s with
  | nil => exact hI
  | cons e es ih => exact ih _ (inv_step_total specs s e hI)

theorem inv_run (specs : List ServerSpec) (evs : List Event) : Inv specs (run specs evs) :=
  inv_foldl specs evs _ (inv_start specs)

/-! ## Histories, counts and other auxiliary facts -/

theorem mem_projAll (i : Nat) (a : Act) (tr : List Effect) :
    a ∈ projAll i tr ↔ a ∈ proj i .task tr ∨ a ∈ proj i .watcher tr := by
  simp only [projAll, proj, List.mem_filterMap]
  constructor
  · rintro ⟨ef, hm, hf⟩
    by_cases hw : ef.who = i
    · simp only [hw, if_true, Option.some.injEq] at hf
      cases hg : ef.gor
      · exact Or.inl ⟨ef, hm, by simp [hw, hg, hf]⟩
      · exact Or.inr ⟨ef, hm, by simp [hw, hg, hf]⟩
    · simp [hw] at hf
  · rintro (⟨ef, hm, hf⟩ | ⟨ef, hm, hf⟩)
    all_goals
      split at hf
      · rename_i hw
        simp only [Option.some.injEq] at hf
        exact ⟨ef, hm, by simp [hw.1, hf]⟩
      · cases hf

theorem count_projAll (i : Nat) (a : Act) (tr : List Effect) :
    (projAll i tr).count a = (proj i .task tr).count a + (proj i .watcher tr).count a := by
  induction tr with
  | nil => simp [projAll, proj]
  | cons ef t ih =>
    obtain ⟨w, g, b⟩ := ef
    simp only [projAll, proj, List.filterMap_cons] at ih ⊢
    by_cases hw : w = i <;> cases g <;> simp [hw, ih, List.count_cons] <;> omega

theorem projAll_eq_task (i : Nat) (tr : List Effect) (h : proj i .watcher tr = []) :
    projAll i tr = proj i .task tr := by
  induction tr with
  | nil => simp [projAll, proj]
  | cons ef t ih =>
    obtain ⟨w, g, b⟩ := ef
    simp only [projAll, proj, List.filterMap_cons] at ih h ⊢
    by_cases hw : w = i <;> cases g <;> simp_all

theorem GoError.is_self (e : GoError) : e.is e = true := by
  cases e <;> simp [GoError.is]

theorem initLine_ne_forcedLine (name : String) : initLine name ≠ forcedLine name := by
  intro h
  have h2 := congrArg (fun l => l.msg.length) h
  simp only [initLine, forcedLine, String.length_append] at h2
  have e1 : "initiated a graceful shutdown of the ".length = 37 := by decide
  have e2 : " server".length = 7 := by decide
  have e3 : " server terminated abruptly, necessitating a forced closure.".length = 60 := by decide
  omega

theorem count_taskHist_watcherActs (addr name : String) (l : Option String) (err : Option GoError)
    (pc : TaskPc) (a : Act)
    (ha : a = .shutdownCall ∨ a = .closeCall ∨ a = .log (forcedLine name) ∨ a = .log (initLine name)) :
    (taskHist addr name l err pc).count a = 0 := by
  rw [List.count_eq_zero]
  rcases ha with rfl | rfl | rfl | rfl <;> cases pc <;> try cases err
  all_goals simp [taskHist, upLine, forcedLine, initLine]

theorem count_watcherHist_shutdownCall (name : String) (d : Option Nat) (pc : WatcherPc) :
    (watcherHist name d pc).count .shutdownCall = if pc.calledShutdown then 1 else 0 := by
  cases pc <;> simp [watcherHist, WatcherPc.calledShutdown, List.count_cons]
  split <;> simp [List.count_cons]

theorem step_watcher_frame (specs : List ServerSpec) (s : State) (i : Nat) (w : WatcherEvent) :
    (∀ j, ((step specs s (.watcher i w)).srv j).task = (s.srv j).task) ∧
      (step specs s (.watcher i w)).egErr = s.egErr ∧
      (step specs s (.watcher i w)).waited = s.waited ∧
      (step specs s (.watcher i w)).exited = s.exited := by
  unfold step
  cases h : step? specs s (.watcher i w) with
  | none => simp
  | some s' =>
    simp only [step?] at h
    split at h
    case isFalse => exact absurd h (by simp)
    split at h
    case h_2 => exact absurd h (by simp)
    rename_i sv acts hstep
    simp only [Option.some.injEq] at h
    subst h
    obtain ⟨f1, -⟩ := watcherStep_facts _ _ _ _ _ _ _ i hstep
    refine ⟨fun j => ?_, rfl, rfl, rfl⟩
    by_cases hj : j = i
    · subst hj; simpa using f1
    · simp [hj]

theorem mem_logsOf (line : LogLine) (acts : List Act) : line ∈ logsOf acts ↔ .log line ∈ acts := by
  simp only [logsOf, List.mem_filterMap]
  constructor
  · rintro ⟨a, hm, hf⟩
    cases a <;> simp at hf
    subst hf
    exact hm
  · intro h
    exact ⟨_, h, rfl⟩

theorem mentions_upLine (name b : String) : Mentions (upLine name b).msg name :=
  ⟨"", " server is up and running", by simp [upLine]⟩

theorem mentions_initLine (name : String) : Mentions (initLine name).msg name :=
  ⟨"initiated a graceful shutdown of the ", " server", rfl⟩

theorem mentions_forcedLine (name : String) : Mentions (forcedLine name).msg name :=
  ⟨"", " server terminated abruptly, necessitating a forced closure.", by simp [forcedLine]⟩

theorem step_deadline_frame (specs : List ServerSpec) (s : State) (i : Nat) (e : Event)
    (hsw : ∀ j, (s.srv j).task = .startWatcher → (s.srv j).watcher = .notStarted)
    (he : e ≠ .watcher i .observeDone) :
    ((step specs s e).srv i).deadline = (s.srv i).deadline := by
  unfold step
  cases h : step? specs s e with
  | none => rfl
  | some s' =>
    simp only [Option.getD_some]
    cases e with
    | task j ev =>
      simp only [step?] at h
      split at h
      case isFalse => exact absurd h (by simp)
      split at h
      case h_2 => exact absurd h (by simp)
      rename_i sv acts ret hstep
      simp only [Option.some.injEq] at h
      subst h
      obtain ⟨-, -, -, f4, -⟩ := runHTTPStep_facts _ _ _ _ _ _ _ j (hsw j) hstep
      by_cases hj : i = j
      · subst hj; simpa using f4
      · simp [hj]
    | watcher j ev =>
      simp only [step?] at h
      split at h
      case isFalse => exact absurd h (by simp)
      split at h
      case h_2 => exact absurd h (by simp)
      rename_i sv acts hstep
      simp only [Option.some.injEq] at h
      subst h
      by_cases hj : i = j
      · subst hj
        simp only [upd_same]
        cases ev <;> simp only [watcherStep] at hstep <;> split at hstep <;>
          simp only [Option.some.injEq, Prod.mk.injEq, reduceCtorEq] at hstep
        all_goals first
          | exact hstep.elim
          | exact absurd rfl he
          | (obtain ⟨rfl, -⟩ := hstep; rfl)
      · simp [hj]
    | parentCancel =>
      simp only [step?] at h
      split at h <;> simp only [Option.some.injEq, reduceCtorEq] at h
      subst h; rfl
    | wait =>
      simp only [step?] at h
      split at h <;> simp only [Option.some.injEq, reduceCtorEq] at h
      subst h; rfl
    | mainReturn =>
      simp only [step?] at h
      split at h <;> simp only [Option.some.injEq, reduceCtorEq] at h
      subst h; rfl
    | cliReturn r =>
      simp only [step?] at h
      split at h <;> simp only [Option.some.injEq, reduceCtorEq] at h
      subst h; rfl
    | tick d =>
      simp only [step?] at h
      split at h <;> simp only [Option.some.injEq, reduceCtorEq] at h
      subst h; rfl

theorem closed_task_facts (specs : List ServerSpec) (s : State) (hI : Inv specs s) (i : Nat)
    (h : (s.srv i).task = .done (some .errServerClosed)) :
    (s.srv i).l ≠ none ∧ (s.srv i).watcher.calledShutdown = true ∧
      (logsOf (projAll i s.trace)).count (initLine (specName specs i)) = 1 := by
  have hL := hI.loc i
  have hcs := hL.insh (hL.closedIn h)
  have herr : (s.srv i).err = none := by
    cases he : (s.srv i).err with
    | none => rfl
    | some e =>
      have := (hL.errL e he).1
      rw [h] at this
      simp [bindError] at this
  refine ⟨?_, hcs, ?_⟩
  · intro hl
    rcases hL.bnd hl with h1 | h1
    · rw [h] at h1; cases h1
    · exact h1 herr
  · have hne := initLine_ne_forcedLine (specName specs i)
    have hcount : ∀ acts : List Act,
        (logsOf acts).count (initLine (specName specs i)) =
          acts.count (.log (initLine (specName specs i))) := by
      intro acts
      induction acts with
      | nil => rfl
      | cons a t ih =>
        cases a <;> simp [logsOf, List.filterMap_cons, List.count_cons] at ih ⊢ <;> simp [ih]
    rw [hcount, count_projAll, hL.taskH, hL.watchH,
      count_taskHist_watcherActs _ _ _ _ _ _ (Or.inr (Or.inr (Or.inr rfl)))]
    revert hcs
    cases (s.srv i).watcher <;>
      simp [WatcherPc.calledShutdown, watcherHist, List.count_cons, hne, Ne.symm hne]
    split <;> simp [List.count_cons, hne, Ne.symm hne]

theorem all_closed_result (specs : List ServerSpec) (s : State) (hI : Inv specs s)
    (hn : 0 < specs.length)
    (hall : ∀ i, i < specs.length → (s.srv i).task = .done (some .errServerClosed)) :
    s.egErr = some .errServerClosed := by
  have h0 : s.egErr ≠ none := hI.g6 0 (by rw [hall 0 hn]; rfl)
  cases hg : s.egErr with
  | none => exact absurd hg h0
  | some e =>
    obtain ⟨i, hi, hd⟩ := hI.g5 e hg
    rw [hall i hi] at hd
    simp only [TaskPc.done.injEq, Option.some.injEq] at hd
    rw [hd]

/-- C1, counterexample: in the default configuration, without any cancellation of the
parent context, `metrics` is shut down by its watcher after the serve loop of `pprof`
failed, its serve loop ends with `http.ErrServerClosed`, and its task returns that error,
not nil; and when the parent context is cancelled and all three servers drain, the value
returned by `eg.Wait()` is `http.ErrServerClosed`. -/
theorem C1_counterexample :
    (valid (actionSpecs defaultConf) serveFailThenClosed = true ∧
      (run (actionSpecs defaultConf) serveFailThenClosed).parentDone = false ∧
      .shutdownCall ∈ projAll 1 (run (actionSpecs defaultConf) serveFailThenClosed).trace ∧
      ((run (actionSpecs defaultConf) serveFailThenClosed).srv 1).task =
        .done (some .errServerClosed) ∧
      ((run (actionSpecs defaultConf) serveFailThenClosed).srv 1).task ≠ .done none) ∧
    (valid (actionSpecs defaultConf) cancelAndDrain = true ∧
      (run (actionSpecs defaultConf) cancelAndDrain).waited = some (some .errServerClosed)) := by
  decide

/-- C1, amended: a task whose serve loop ended with `http.ErrServerClosed` has returned
that very error, not nil, and its watcher had called `s.Shutdown`; the value returned by
`eg.Wait()` is the first non-nil value a task returned; and that value is
`http.ErrServerClosed` only if the parent context was cancelled. -/
theorem C1_amended (specs : List ServerSpec) (evs : List Event) (i : Nat) :
    (.serveRet (some .errServerClosed) ∈ proj i .task (run specs evs).trace →
        ((run specs evs).srv i).task = .done (some .errServerClosed) ∧
          .shutdownCall ∈ projAll i (run specs evs).trace) ∧
      (∀ r, (run specs evs).waited = some r → r = firstErr (completions (run specs evs).trace)) ∧
      ((run specs evs).waited = some (some .errServerClosed) →
        (run specs evs).parentDone = true) := by
  have hI := inv_run specs evs
  have hL := hI.loc i
  generalize run specs evs = s at hI hL
  refine ⟨?_, ?_, ?_⟩
  · intro hm
    have hd : (s.srv i).task = .done (some .errServerClosed) := by
      rw [hL.taskH] at hm
      cases hp : (s.srv i).task <;> rw [hp] at hm <;> simp only [taskHist] at hm
      all_goals try split at hm
      all_goals simp at hm
      rw [hm]
    refine ⟨hd, ?_⟩
    have hcs := (closed_task_facts specs s hI i hd).2.1
    apply List.count_pos_iff.1
    rw [count_projAll, hL.taskH, hL.watchH, count_taskHist_watcherActs _ _ _ _ _ _ (Or.inl rfl),
      count_watcherHist_shutdownCall, hcs]
    simp
  · intro r hr
    rw [(hI.g2 r hr).1]
    exact hI.g3
  · intro hw
    have h1 := (hI.g2 _ hw).1
    cases hp : s.parentDone with
    | true => rfl
    | false => exact absurd h1.symm (hI.g4 hp)

/-- Witness of C1, amended: the graceful shutdown of `metrics` after `pprof` failed. -/
theorem C1_amended_witness :
    .serveRet (some .errServerClosed) ∈
        proj 1 .task (run (actionSpecs defaultConf) serveFailThenClosed).trace ∧
      ((run (actionSpecs defaultConf) serveFailThenClosed).srv 1).task =
        .done (some .errServerClosed) :=
  ⟨by decide, ((C1_amended (actionSpecs defaultConf) serveFailThenClosed 1).1 (by decide)).1⟩

/-- C3: if binding the listener of call `i` failed with `e`, then `runHTTP` has returned the
error built at line 114, which wraps `e` and whose text is "could not listen for NAME on
address " followed by the text of `e`; and all that call `i` ever did, in both goroutines, is
one call of `net.Listen` and the return: no second bind, no `go`, no `Serve`, no log line. -/
theorem C3_bind_failure (specs : List ServerSpec) (evs : List Event) (i : Nat) (e : GoError)
    (h : ((run specs evs).srv i).err = some e) :
    ((run specs evs).srv i).task = .done (some (bindError (specName specs i) e)) ∧
      (bindError (specName specs i) e).Unwrap = some e ∧
      errorsIs (some (bindError (specName specs i) e)) e = true ∧
      (bindError (specName specs i) e).Error =
        "could not listen for " ++ specName specs i ++ " on address " ++ e.Error ∧
      projAll i (run specs evs).trace =
        [.listenFail (specAddr specs i) e, .ret (some (bindError (specName specs i) e))] ∧
      ((run specs evs).srv i).watcher = .notStarted := by
  have hI := (inv_run specs evs).loc i
  obtain ⟨h1, h2, h3⟩ := hI.errL e h
  have hw : proj i .watcher (run specs evs).trace = [] := by
    rw [hI.watchH, h3]; rfl
  refine ⟨h1, rfl, ?_, rfl, ?_, h3⟩
  · simp [errorsIs, bindError, GoError.is, GoError.is_self]
  · rw [projAll_eq_task i _ hw, hI.taskH, h1, h]
    rfl

/-- Witness of C3: the default configuration, where the bind of `pprof` fails at once. -/
theorem C3_bind_failure_witness :
    ((run (actionSpecs defaultConf) [.task 0 (.listenFail addrInUse)]).srv 0).err = some addrInUse ∧
      ((run (actionSpecs defaultConf) [.task 0 (.listenFail addrInUse)]).srv 0).task =
        .done (some (bindError "pprof" addrInUse)) :=
  ⟨by decide, (C3_bind_failure (actionSpecs defaultConf) [.task 0 (.listenFail addrInUse)] 0
    addrInUse (by decide)).1⟩

/-- C5: no step of a watcher, whatever `s.Shutdown` and `s.Close` return, changes the
result of any task, the error kept by the group or the value returned by the coordinator;
and the value a task has returned is either the error of line 114 built from the error of
`net.Listen`, or exactly the value that `s.Serve` returned. -/
theorem C5_watcher_adds_no_error (specs : List ServerSpec) (evs : List Event) (i : Nat) :
    (∀ w j, ((step specs (run specs evs) (.watcher i w)).srv j).task =
        ((run specs evs).srv j).task) ∧
      (∀ w, (step specs (run specs evs) (.watcher i w)).egErr = (run specs evs).egErr ∧
        (step specs (run specs evs) (.watcher i w)).waited = (run specs evs).waited) ∧
      (∀ r, ((run specs evs).srv i).task = .done r →
        (∃ e, .listenFail (specAddr specs i) e ∈ proj i .task (run specs evs).trace ∧
            .serveCall ∉ proj i .task (run specs evs).trace ∧
            r = some (bindError (specName specs i) e)) ∨
          (.serveRet r ∈ proj i .task (run specs evs).trace ∧
            (∀ e, .listenFail (specAddr specs i) e ∉ proj i .task (run specs evs).trace))) := by
  refine ⟨fun w j => (step_watcher_frame specs _ i w).1 j,
    fun w => ⟨(step_watcher_frame specs _ i w).2.1, (step_watcher_frame specs _ i w).2.2.1⟩, ?_⟩
  intro r hr
  have hL := (inv_run specs evs).loc i
  rw [hL.taskH, hr]
  cases he : ((run specs evs).srv i).err with
  | some e =>
    left
    have h1 := (hL.errL e he).1
    rw [hr] at h1
    simp only [TaskPc.done.injEq] at h1
    exact ⟨e, by simp [taskHist], by simp [taskHist], h1⟩
  | none =>
    right
    simp [taskHist]

/-- Witness of C5: after a forced closure the task of `metrics` has returned what `Serve`
returned. -/
theorem C5_watcher_adds_no_error_witness :
    ((run (actionSpecs defaultConf) (allServing ++ .parentCancel :: forcedDrain 1)).srv 1).task =
        .done (some .errServerClosed) ∧
      .serveRet (some .errServerClosed) ∈
        proj 1 .task (run (actionSpecs defaultConf) (allServing ++ .parentCancel :: forcedDrain 1)).trace :=
  ⟨by decide,
    ((C5_watcher_adds_no_error (actionSpecs defaultConf)
      (allServing ++ .parentCancel :: forcedDrain 1) 1).2.2 (some .errServerClosed) (by decide)).elim
      (fun h => absurd h.choose_spec.2.2 (by simp [bindError])) (fun h => h.1)⟩

/-- C6: suppose the parent context was never cancelled, the bind of call `j` failed with
`e`, and no other task has returned a fatal error (each either still runs or ended with
`http.ErrServerClosed`).  Then the shared context is done, the error kept by the group,
and returned by `eg.Wait()` once it returns, is the bind error of `j`; every other server
whose task has ended had bound its listener and its watcher logged the start of the
graceful shutdown exactly once; and every other watcher that still waits can run up to its
call of `s.Shutdown`. -/
theorem C6_bind_failure_cancels_siblings (specs : List ServerSpec) (evs : List Event) (j : Nat)
    (e : GoError) (hp : (run specs evs).parentDone = false)
    (hj : ((run specs evs).srv j).err = some e)
    (ho : ∀ i, i < specs.length → i ≠ j → ((run specs evs).srv i).task.isDone = true →
      ((run specs evs).srv i).task = .done (some .errServerClosed)) :
    (run specs evs).ctxDone = true ∧
      (run specs evs).egErr = some (bindError (specName specs j) e) ∧
      (∀ r, (run specs evs).waited = some r → r = some (bindError (specName specs j) e)) ∧
      (∀ i, i ≠ j → ((run specs evs).srv i).task.isDone = true →
        ((run specs evs).srv i).l ≠ none ∧
          (logsOf (projAll i (run specs evs).trace)).count (initLine (specName specs i)) = 1) ∧
      (∀ i, i < specs.length → i ≠ j → (run specs evs).exited = none →
        ((run specs evs).srv i).watcher = .waiting →
        validFrom specs (run specs evs) (beginShutdown i) = true) := by
  have hI := inv_run specs evs
  generalize run specs evs = s at hI hp hj ho
  have hjd := ((hI.loc j).errL e hj).1
  have hg : s.egErr = some (bindError (specName specs j) e) := by
    have h0 : s.egErr ≠ none := hI.g6 j (by rw [hjd]; rfl)
    cases hg : s.egErr with
    | none => exact absurd hg h0
    | some e' =>
      obtain ⟨i, hi, hd⟩ := hI.g5 e' hg
      by_cases hij : i = j
      · subst hij
        rw [hjd] at hd
        simp only [TaskPc.done.injEq, Option.some.injEq] at hd
        rw [hd]
      · have h1 := ho i hi hij (by rw [hd]; rfl)
        rw [hd] at h1
        simp only [TaskPc.done.injEq, Option.some.injEq] at h1
        subst h1
        exact absurd hg (hI.g4 hp)
  have hc : s.ctxDone = true := hI.g9 (by rw [hg]; simp)
  refine ⟨hc, hg, ?_, ?_, ?_⟩
  · intro r hr
    rw [(hI.g2 r hr).1, hg]
  · intro i hij hd
    have hi : i < specs.length := by
      by_contra hn
      rw [hI.out i (by omega)] at hd
      cases hd
    have hf := closed_task_facts specs s hI i (ho i hi hij hd)
    exact ⟨hf.1, hf.2.2⟩
  · intro i hi _ hx hw
    simp [beginShutdown, validFrom, step?, watcherStep, hi, hx, hc, hw]

/-- Witness of C6: the bind of `pprof` fails while `metrics` and `app` serve. -/
theorem C6_bind_failure_cancels_siblings_witness :
    (run (actionSpecs defaultConf) bindFailsOthersServe).parentDone = false ∧
      ((run (actionSpecs defaultConf) bindFailsOthersServe).srv 0).err = some addrInUse ∧
      (run (actionSpecs defaultConf) bindFailsOthersServe).waited =
        some (some (bindError "pprof" addrInUse)) ∧
      (run (actionSpecs defaultConf) bindFailsOthersServe).egErr =
        some (bindError (specName (actionSpecs defaultConf) 0) addrInUse) :=
  ⟨by decide, by decide, by decide,
    (C6_bind_failure_cancels_siblings (actionSpecs defaultConf) bindFailsOthersServe 0 addrInUse
      (by decide) (by decide) (by decide)).2.1⟩

/-- C7: in every reachable state, call `i` has seen at most one call of `s.Shutdown`; none
as long as the shared context is not done; exactly one once its watcher has ended; and none
at all when its listener was never bound or when `i` is not one of the servers. -/
theorem C7_one_shutdown_attempt (specs : List ServerSpec) (evs : List Event) (i : Nat) :
    shutdownAttempts i (run specs evs).trace ≤ 1 ∧
      ((run specs evs).ctxDone = false → shutdownAttempts i (run specs evs).trace = 0) ∧
      (∀ r, ((run specs evs).srv i).watcher = .done r →
        shutdownAttempts i (run specs evs).trace = 1) ∧
      (((run specs evs).srv i).l = none → shutdownAttempts i (run specs evs).trace = 0) ∧
      (specs.length ≤ i → shutdownAttempts i (run specs evs).trace = 0) := by
  have hI := inv_run specs evs
  have hL := hI.loc i
  have hc : shutdownAttempts i (run specs evs).trace =
      if ((run specs evs).srv i).watcher.calledShutdown then 1 else 0 := by
    unfold shutdownAttempts
    rw [count_projAll, hL.taskH, hL.watchH, count_taskHist_watcherActs _ _ _ _ _ _ (Or.inl rfl),
      count_watcherHist_shutdownCall]
    simp
  have hns : ((run specs evs).srv i).watcher = .notStarted →
      shutdownAttempts i (run specs evs).trace = 0 := by
    intro h
    rw [hc, h]
    rfl
  refine ⟨?_, ?_, ?_, ?_, ?_⟩
  · rw [hc]; split <;> simp
  · intro hctx
    rw [hc]
    have hw := hI.wctx i
    cases hp : ((run specs evs).srv i).watcher <;>
      simp_all [WatcherPc.calledShutdown, WatcherPc.woke]
  · intro r hr
    rw [hc, hr]
    rfl
  · intro hl
    apply hns
    rcases hL.bnd hl with h | h
    · exact (hL.lsn h).2.2
    · cases he : ((run specs evs).srv i).err with
      | none => exact absurd he h
      | some e => exact (hL.errL e he).2.2
  · intro hi
    apply hns
    rw [hI.out i hi]
    rfl

/-- Witness of C7: a forced drain of `metrics` after the parent context was cancelled. -/
theorem C7_one_shutdown_attempt_witness :
    ((run (actionSpecs defaultConf) (allServing ++ .parentCancel :: forcedDrain 1)).srv 1).watcher =
        .done (some .deadlineExceeded) ∧
      shutdownAttempts 1
        (run (actionSpecs defaultConf) (allServing ++ .parentCancel :: forcedDrain 1)).trace = 1 :=
  ⟨by decide,
    (C7_one_shutdown_attempt (actionSpecs defaultConf)
      (allServing ++ .parentCancel :: forcedDrain 1) 1).2.2.1 (some .deadlineExceeded) (by decide)⟩

/-- C8, counterexample: with an unknown flag on the command line `app.Run` returns an error
without calling `Action`; `main` logs it and the process exits with status 1 although the
coordinator has returned nothing, so status 1 does not require a non-nil aggregated result.
And for a caller of `Action` that cancels the parent context once all three servers serve,
after a full drain (one server closed by force) the coordinator returns
`http.ErrServerClosed`, not nil. -/
theorem C8_counterexample :
    (valid (actionSpecs defaultConf) unknownFlag = true ∧
      (run (actionSpecs defaultConf) unknownFlag).waited = none ∧
      (run (actionSpecs defaultConf) unknownFlag).trace = [] ∧
      (run (actionSpecs defaultConf) unknownFlag).mainLog = [runErrorLine flagError] ∧
      (run (actionSpecs defaultConf) unknownFlag).exited = some 1) ∧
    (valid (actionSpecs defaultConf) cancelDrainForced = true ∧
      (∀ i, i < 3 → ((run (actionSpecs defaultConf) cancelDrainForced).srv i).task =
        .done (some .errServerClosed)) ∧
      (run (actionSpecs defaultConf) cancelDrainForced).waited = some (some .errServerClosed) ∧
      (run (actionSpecs defaultConf) cancelDrainForced).waited ≠ some none) := by
  decide

/-- C8, amended: when the process has exited with status `c`, `app.Run` had returned some
`ρ`, and either `ρ` is nil, `c` is 0 and `main` logged nothing, or `ρ` is an error, `c` is 1
and `main` logged exactly that error once at error severity; `ρ` is the result of the
coordinator if the coordinator returned, and otherwise no goroutine of `Action` ever took
a step; so a non-nil result of the coordinator always gives status 1, and with at least one
server status 0 is reached only without the coordinator; and when every task ended with
`http.ErrServerClosed` (all servers bound and were shut down), the coordinator returned
`http.ErrServerClosed` and `c` is 1. -/
theorem C8_amended (specs : List ServerSpec) (evs : List Event) (c : Nat)
    (h : (run specs evs).exited = some c) :
    ∃ ρ, (run specs evs).appRun = some ρ ∧
      ((ρ = none ∧ c = 0 ∧ (run specs evs).mainLog = []) ∨
        (∃ e, ρ = some e ∧ c = 1 ∧ (run specs evs).mainLog = [runErrorLine e])) ∧
      (c = 1 ↔ ρ ≠ none) ∧
      (∀ r, (run specs evs).waited = some r → ρ = r) ∧
      (∀ r, (run specs evs).waited = some r → r ≠ none → c = 1) ∧
      ((run specs evs).waited = none → (run specs evs).trace = []) ∧
      (0 < specs.length → c = 0 → (run specs evs).waited = none) ∧
      (0 < specs.length →
        (∀ i, i < specs.length → ((run specs evs).srv i).task = .done (some .errServerClosed)) →
        (run specs evs).waited = some (some .errServerClosed) ∧ c = 1) := by
  have hI := inv_run specs evs
  generalize run specs evs = s at hI h
  obtain ⟨ρ, ha, hlog, hc, hwr, hnt⟩ := hI.g8 c h
  have hiff : c = 1 ↔ ρ ≠ none := by
    cases ρ <;> simp [mainExit] at hc <;> simp [hc]
  have hnz : 0 < specs.length → ∀ r, s.waited = some r → r ≠ none := by
    intro hn r hr
    obtain ⟨h1, h2⟩ := hI.g2 r hr
    rw [h1]
    exact hI.g6 0 (h2 0 hn)
  refine ⟨ρ, ha, ?_, hiff, hwr, ?_, hnt, ?_, ?_⟩
  · cases ρ with
    | none => exact Or.inl ⟨rfl, by simpa [mainExit] using hc, by simpa [mainExit] using hlog⟩
    | some e =>
      exact Or.inr ⟨e, rfl, by simpa [mainExit] using hc, by simpa [mainExit] using hlog⟩
  · intro r hr hne
    rw [hiff, hwr r hr]
    exact hne
  · intro hn h0
    cases hwt : s.waited with
    | none => rfl
    | some r =>
      exfalso
      have h1 := hnz hn r hwt
      rw [← hwr r hwt] at h1
      have := hiff.2 h1
      omega
  · intro hn hall
    have hne : s.trace ≠ [] := by
      intro ht
      have hT := (hI.loc 0).taskH
      rw [ht, hall 0 hn] at hT
      revert hT
      cases (s.srv 0).err <;> simp [proj, taskHist]
    cases hwt : s.waited with
    | none => exact absurd (hnt hwt) hne
    | some r =>
      have h1 := (hI.g2 r hwt).1
      rw [all_closed_result specs s hI hn hall] at h1
      subst h1
      refine ⟨rfl, ?_⟩
      rw [hiff, hwr _ hwt]
      simp

/-- Witness of C8, amended: the serve loop of `pprof` fails, the other servers drain, the
coordinator returns that error and the process exits with status 1. -/
theorem C8_amended_witness :
    (run (actionSpecs defaultConf) selfFailExit).exited = some 1 ∧
      ∃ ρ, (run (actionSpecs defaultConf) selfFailExit).appRun = some ρ ∧ ((1 : Nat) = 1 ↔ ρ ≠ none) :=
  ⟨by decide,
    (C8_amended (actionSpecs defaultConf) selfFailExit 1 (by decide)).elim
      fun ρ hr => ⟨ρ, hr.1, hr.2.2.1⟩⟩

/-- C9, counterexample: in the default configuration the watcher of `metrics` observes the
cancellation at time 7 and gets the deadline 7 + 1 000 000 000 ns, not 7 + 50 000 000 ns as a
caller asking for a grace of 50 ms would have it; no argument of `runHTTP` and no field of
the configuration carries a grace duration. -/
theorem C9_counterexample :
    valid (actionSpecs defaultConf) observeAtSeven = true ∧
      (run (actionSpecs defaultConf) observeAtSeven).now = 7 ∧
      ((run (actionSpecs defaultConf) observeAtSeven).srv 1).deadline = some (7 + 1000000000) ∧
      ((run (actionSpecs defaultConf) observeAtSeven).srv 1).deadline ≠ some (7 + scenarioGrace) := by
  decide

/-- C9, amended: the grace is the constant `time.Second`.  Every timeout context created for
call `i` is derived from `context.Background()`, with timeout one second, and its deadline
is the one the watcher of `i` holds; a watcher that observes the cancellation at time `now`
gets the deadline `now + second`; no other step of any goroutine, of call `i` or of another
call, changes that deadline; and `s.Shutdown` has returned `context.DeadlineExceeded` itself
only once that deadline has passed. -/
theorem C9_amended (specs : List ServerSpec) (evs : List Event) (i : Nat) :
    (∀ p t d, .withTimeout p t d ∈ projAll i (run specs evs).trace →
        p = .background ∧ t = second ∧ ((run specs evs).srv i).deadline = some d) ∧
      (i < specs.length → (run specs evs).exited = none → (run specs evs).ctxDone = true →
        ((run specs evs).srv i).watcher = .waiting →
        ((step specs (run specs evs) (.watcher i .observeDone)).srv i).deadline =
          some ((run specs evs).now + second)) ∧
      (∀ e, e ≠ .watcher i .observeDone →
        ((step specs (run specs evs) e).srv i).deadline = ((run specs evs).srv i).deadline) ∧
      (((run specs evs).srv i).watcher.shutdownResult = some (some .deadlineExceeded) →
        ∃ d, ((run specs evs).srv i).deadline = some d ∧ d ≤ (run specs evs).now) := by
  have hI := inv_run specs evs
  have hL := hI.loc i
  generalize run specs evs = s at hI hL
  refine ⟨?_, ?_, ?_, ?_⟩
  · intro p t d hm
    rw [mem_projAll, hL.taskH, hL.watchH] at hm
    rcases hm with hm | hm
    · exfalso
      revert hm
      cases (s.srv i).task <;> try cases (s.srv i).err
      all_goals simp [taskHist]
    · have hd : (s.srv i).watcher.woke = true → (s.srv i).deadline ≠ none := hL.ddl
      cases hp : (s.srv i).watcher <;> rw [hp] at hm hd <;> simp only [watcherHist] at hm
      all_goals try split at hm
      all_goals simp at hm
      all_goals
        obtain ⟨rfl, rfl, rfl⟩ := hm
        have hd2 := hd rfl
        cases hx : (s.srv i).deadline with
        | none => exact absurd hx hd2
        | some d => simp
  · intro hi hx hc hw
    simp [step, step?, watcherStep, hi, hx, hc, hw]
  · intro e he
    exact step_deadline_frame specs s i e (fun j => (hI.loc j).sw) he
  · intro hr
    have h1 := hI.dl i hr
    have hw : (s.srv i).watcher.woke = true := by
      revert hr
      cases (s.srv i).watcher <;> simp [WatcherPc.shutdownResult, WatcherPc.woke]
    cases hx : (s.srv i).deadline with
    | none => exact absurd hx (hL.ddl hw)
    | some d =>
      rw [hx] at h1
      exact ⟨d, rfl, h1⟩

/-- Witness of C9, amended: the watcher of `metrics` observes the cancellation at time 7. -/
theorem C9_amended_witness :
    ((step (actionSpecs defaultConf)
        (run (actionSpecs defaultConf) (allServing ++ [.tick 7, .parentCancel]))
        (.watcher 1 .observeDone)).srv 1).deadline =
      some ((run (actionSpecs defaultConf) (allServing ++ [.tick 7, .parentCancel])).now + second) :=
  (C9_amended (actionSpecs defaultConf) (allServing ++ [.tick 7, .parentCancel]) 1).2.1
    (by decide) (by decide) (by decide) (by decide)

/-- C10, counterexample: in the default configuration the bind of `pprof` fails, so the
shared context is done before `metrics` starts its watcher, and the watcher of `metrics`
logs the start of the shutdown before the task logs that the server is up. -/
theorem C10_counterexample :
    valid (actionSpecs defaultConf) initBeforeUp = true ∧
      (run (actionSpecs defaultConf) initBeforeUp).parentDone = false ∧
      logsOf (projAll 1 (run (actionSpecs defaultConf) initBeforeUp).trace) =
        [initLine "metrics", upLine "metrics" "[::]:3001"] := by
  decide

/-- C10, amended: for every call `i` in every reachable state, the task goroutine has logged
nothing or exactly the one line "NAME server is up and running" carrying the address the
listener reported; once `s.Serve` has been called the history of the task starts with bind,
start of the watcher, that line and the call of `s.Serve`, in this order; the watcher has
logged nothing, or the line of the graceful shutdown, or that line followed by the line of
the forced closure; and every line logged for the call contains its name. -/
theorem C10_amended (specs : List ServerSpec) (evs : List Event) (i : Nat) :
    (logsOf (proj i .task (run specs evs).trace) = [] ∨
        ∃ b, .listenOk (specAddr specs i) b ∈ proj i .task (run specs evs).trace ∧
          logsOf (proj i .task (run specs evs).trace) = [upLine (specName specs i) b]) ∧
      (.serveCall ∈ proj i .task (run specs evs).trace →
        ∃ b rest, proj i .task (run specs evs).trace =
          [.listenOk (specAddr specs i) b, .go, .log (upLine (specName specs i) b), .serveCall]
            ++ rest) ∧
      (logsOf (proj i .watcher (run specs evs).trace) = [] ∨
        logsOf (proj i .watcher (run specs evs).trace) = [initLine (specName specs i)] ∨
        logsOf (proj i .watcher (run specs evs).trace) =
          [initLine (specName specs i), forcedLine (specName specs i)]) ∧
      (∀ line, line ∈ logsOf (projAll i (run specs evs).trace) →
        Mentions line.msg (specName specs i)) := by
  have hL := (inv_run specs evs).loc i
  generalize run specs evs = s at hL
  have hlogs : ∀ line, line ∈ logsOf (projAll i s.trace) →
      (∃ b, line = upLine (specName specs i) b) ∨ line = initLine (specName specs i) ∨
        line = forcedLine (specName specs i) := by
    intro line hm
    rw [mem_logsOf, mem_projAll, hL.taskH, hL.watchH] at hm
    rcases hm with hm | hm
    · left
      refine ⟨(s.srv i).l.getD "", ?_⟩
      revert hm
      cases (s.srv i).task <;> try cases (s.srv i).err
      all_goals simp [taskHist]
    · right
      cases hp : (s.srv i).watcher <;> rw [hp] at hm <;> simp only [watcherHist] at hm
      all_goals try split at hm
      all_goals simp at hm
      all_goals tauto
  refine ⟨?_, ?_, ?_, ?_⟩
  · rw [hL.taskH]
    cases (s.srv i).task <;> try cases (s.srv i).err
    all_goals simp [taskHist, logsOf]
  · rw [hL.taskH]
    cases (s.srv i).task <;> try cases (s.srv i).err
    all_goals simp [taskHist]
  · rw [hL.watchH]
    cases (s.srv i).watcher <;> simp [watcherHist, logsOf]
    split <;> simp
  · intro line hm
    rcases hlogs line hm with ⟨b, rfl⟩ | rfl | rfl
    · exact mentions_upLine _ _
    · exact mentions_initLine _
    · exact mentions_forcedLine _

/-- Witness of C10, amended: all three servers of the default configuration serve. -/
theorem C10_amended_witness :
    .serveCall ∈ proj 1 .task (run (actionSpecs defaultConf) allServing).trace ∧
      ∃ b rest, proj 1 .task (run (actionSpecs defaultConf) allServing).trace =
        [.listenOk (specAddr (actionSpecs defaultConf) 1) b, .go,
          .log (upLine (specName (actionSpecs defaultConf) 1) b), .serveCall] ++ rest :=
  ⟨by decide, (C10_amended (actionSpecs defaultConf) allServing 1).2.1 (by decide)⟩

end GoBoilerplate
